import Mathlib

/-!
# Verification of the video_keev orchestration core

Shallow embedding of the `video_keev` repository: the frame extractor,
preprocessor and composer policies of `src/video/processor.py`, and the
workflow orchestration state machine of `src/workflow/manager.py` together
with the upload behaviour of `src/api/client.py` and the directory
utilities of `src/utils/file_utils.py`.

Machine reals used by the source (frame rates, progress percentages) are
embedded as `Nat`/`Rat`; file-system and remote-service effects are made
explicit as state passing over lists of paths.
-/

namespace VideoKeev

/-- Ceiling division on naturals: `(a + b - 1) / b`. -/
def ceilDivNat (a b : Nat) : Nat := (a + b - 1) / b

namespace VideoProcessor

/-! ## Frame extractor (`VideoProcessor.extract_frames`)

The extraction loop in `processor.py` reads source frames one at a time
(`cap.read()`), keeps every frame whose running index `frame_count` is a
multiple of `extract_interval`, and, when `max_frames` is given, breaks
right after appending once `extracted_count >= max_frames`.  We embed the
loop as structural recursion over the number of source frames the capture
will still deliver, returning the list of *source indices* of the frames
written out (frame `i` of the output is the source frame at that index). -/

/-- The `extracted_count >= max_frames` test guarding the early `break`. -/
def reachedCap : Option Nat → Nat → Bool
  | none, _ => false
  | some m, e => m ≤ e

/-- The `while True` read loop of `extract_frames`, with `remaining` source
frames still to be delivered, current `frame_count` `fc` and
`extracted_count` `ec`. -/
def extractLoop (interval : Nat) (maxFrames : Option Nat) :
    Nat → Nat → Nat → List Nat
  | 0, _, _ => []
  | rem + 1, fc, ec =>
    if fc % interval = 0 then
      if reachedCap maxFrames (ec + 1) then [fc]
      else fc :: extractLoop interval maxFrames rem (fc + 1) (ec + 1)
    else extractLoop interval maxFrames rem (fc + 1) ec

/-- `extract_interval`: `1` by default, `int(video_fps / frame_rate)` when a
target rate strictly below the native rate is requested. -/
def extractInterval (videoFps : Nat) (frameRate : Option Nat) : Nat :=
  match frameRate with
  | some r => if r < videoFps then videoFps / r else 1
  | none => 1

/-- `extract_frames`, as the source indices of the emitted frames, for a
video with native rate `videoFps` and `totalFrames` decodable frames. -/
def extract_frames (videoFps totalFrames : Nat)
    (frameRate maxFrames : Option Nat) : List Nat :=
  extractLoop (extractInterval videoFps frameRate) maxFrames totalFrames 0 0

theorem extractLoop_none (I : Nat) :
    ∀ rem fc ec, extractLoop I none rem fc ec =
      (List.range' fc rem).filter (fun k => k % I = 0) := by
  intro rem
  induction rem with
  | zero => intro fc ec; rfl
  | succ n ih =>
    intro fc ec
    rw [List.range'_succ]
    by_cases h : fc % I = 0
    · simp [extractLoop, h, reachedCap, ih]
    · simp [extractLoop, h, ih]

theorem extractLoop_some (I m : Nat) :
    ∀ rem fc ec, ec < m → extractLoop I (some m) rem fc ec =
      ((List.range' fc rem).filter (fun k => k % I = 0)).take (m - ec) := by
  intro rem
  induction rem with
  | zero => intro fc ec _; simp [extractLoop]
  | succ n ih =>
    intro fc ec hec
    rw [List.range'_succ]
    by_cases h : fc % I = 0
    · by_cases hcap : m ≤ ec + 1
      · have hm : m = ec + 1 := by omega
        simp [extractLoop, h, reachedCap, hcap, hm]
      · have h1 : m - ec = (m - (ec + 1)) + 1 := by omega
        have ihx := ih (fc + 1) (ec + 1) (by omega)
        simp [extractLoop, h, reachedCap, hcap, ihx, h1]
    · simp [extractLoop, h, ih _ _ hec]

/-- Counting the multiples of `I` among `0, …, T-1`. -/
theorem length_filter_mod (I : Nat) :
    ∀ T, ((List.range T).filter (fun k => k % I = 0)).length =
      T / I + (if I ∣ T then 0 else 1) := by
  intro T
  induction T with
  | zero => simp
  | succ n ih =>
    rw [List.range_succ, List.filter_append, List.length_append]
    simp only [ih]
    rw [Nat.succ_div]
    have hmod : (n % I = 0) ↔ I ∣ n := Nat.dvd_iff_mod_eq_zero.symm
    by_cases h1 : I ∣ n <;> by_cases h2 : I ∣ n + 1 <;>
      simp [h1, h2, hmod, List.filter_cons]

/-- `ceilDivNat` through floor division and divisibility. -/
theorem ceilDivNat_eq (I T : Nat) (hI : 0 < I) :
    ceilDivNat T I = T / I + (if I ∣ T then 0 else 1) := by
  rcases Nat.eq_zero_or_pos T with hT | hT
  · subst hT
    simp [ceilDivNat, Nat.div_eq_of_lt (by omega : I - 1 < I)]
  · have hTd : T + I - 1 = (T - 1) + I := by omega
    rw [ceilDivNat, hTd, Nat.add_div_right _ hI]
    have hdm := Nat.div_add_mod T I
    by_cases h : I ∣ T
    · have hr : T % I = 0 := Nat.dvd_iff_mod_eq_zero.mp h
      have hq : 0 < T / I := by
        rcases Nat.eq_zero_or_pos (T / I) with h0 | h0
        · rw [h0] at hdm
          simp at hdm
          omega
        · exact h0
      obtain ⟨q, hq1⟩ : ∃ q, T / I = q + 1 := ⟨T / I - 1, by omega⟩
      rw [hq1] at hdm
      have hmul : I * (q + 1) = I * q + I := by ring
      have hT1 : T - 1 = I * q + (I - 1) := by omega
      rw [hT1, Nat.mul_add_div hI, Nat.div_eq_of_lt (by omega : I - 1 < I)]
      simp [h, hq1]
    · have hr : T % I ≠ 0 := fun hc => h (Nat.dvd_iff_mod_eq_zero.mpr hc)
      have hT1 : T - 1 = I * (T / I) + (T % I - 1) := by omega
      have hrI : T % I - 1 < I := by
        have := Nat.mod_lt T hI
        omega
      rw [hT1, Nat.mul_add_div hI, Nat.div_eq_of_lt hrI]
      simp [h]

/-- The expected number of frames for native rate `F`, frame total `T`,
requested rate `r` and optional cap `M`, as the specification states it. -/
def expectedCount (F T r : Nat) (M : Option Nat) : Nat :=
  match M with
  | some m => min m (ceilDivNat T (max 1 (F / r)))
  | none => ceilDivNat T (max 1 (F / r))

/-- C5: with `0 < r < F` and any cap `m ≥ 1` (or no cap), the sampling
interval is `max 1 (F / r)`, the number of extracted frames is
`min m ⌈T / I⌉` (resp. `⌈T / I⌉`), and the extracted source indices are
strictly increasing. -/
theorem extract_frames_count_sorted (F T r : Nat) (M : Option Nat)
    (hr : 0 < r) (hrF : r < F) (hM : ∀ m, M = some m → 1 ≤ m) :
    extractInterval F (some r) = max 1 (F / r)
    ∧ (extract_frames F T (some r) M).length = expectedCount F T r M
    ∧ (extract_frames F T (some r) M).Pairwise (· < ·) := by
  have hI : 0 < F / r := (Nat.one_le_div_iff hr).mpr (le_of_lt hrF)
  have hmax : max 1 (F / r) = F / r := max_eq_right hI
  have hint : extractInterval F (some r) = F / r := by
    simp [extractInterval, hrF]
  have hout : extract_frames F T (some r) M = extractLoop (F / r) M T 0 0 := by
    simp [extract_frames, hint]
  refine ⟨by rw [hint, hmax], ?_, ?_⟩
  · rw [hout, expectedCount.eq_def, hmax]
    cases M with
    | none =>
      rw [extractLoop_none, ← List.range_eq_range', length_filter_mod,
        ceilDivNat_eq _ _ hI]
    | some m =>
      have hm : 1 ≤ m := hM m rfl
      rw [extractLoop_some _ _ _ _ _ (by omega : (0:Nat) < m), Nat.sub_zero,
        ← List.range_eq_range', List.length_take, length_filter_mod,
        ceilDivNat_eq _ _ hI]
  · rw [hout]
    cases M with
    | none =>
      rw [extractLoop_none, ← List.range_eq_range']
      exact List.Pairwise.sublist (List.filter_sublist _)
        (List.pairwise_lt_range T)
    | some m =>
      have hm : 1 ≤ m := hM m rfl
      rw [extractLoop_some _ _ _ _ _ (by omega : (0:Nat) < m), Nat.sub_zero,
        ← List.range_eq_range']
      exact List.Pairwise.sublist
        ((List.take_sublist _ _).trans (List.filter_sublist _))
        (List.pairwise_lt_range T)

/-- Witness for C5 at `F = 30`, `T = 300`, `r = 10`, cap `150`: the spec
example, interval `3`, `100` frames, strictly increasing. -/
theorem extract_frames_count_sorted_witness :
    extractInterval 30 (some 10) = max 1 (30 / 10)
    ∧ (extract_frames 30 300 (some 10) (some 150)).length =
        expectedCount 30 300 10 (some 150)
    ∧ (extract_frames 30 300 (some 10) (some 150)).Pairwise (· < ·) :=
  extract_frames_count_sorted 30 300 10 (some 150) (by decide) (by decide)
    (fun m hm => by cases hm; decide)

/-- A cap of `0` still extracts one frame (the cap test in
`extract_frames` runs only after a frame has been appended), while the
claimed count `min 0 ⌈T / I⌉` is `0`: the claim fails at `M = 0`. -/
theorem extract_frames_cap_zero_cex :
    (extract_frames 30 1 (some 10) (some 0)).length = 1
    ∧ expectedCount 30 1 10 (some 0) = 0 := by decide

/-! ## Frame preprocessor (`VideoProcessor.preprocess_frames`)

`preprocess_frames` submits one `_preprocess_single_frame` job per input
frame to a `ThreadPoolExecutor` and then collects results with
`as_completed`, appending each `future.result()` to `processed_paths` as
it arrives.  We embed the nondeterministic completion schedule as a list
`order` of input indices (the order in which the futures complete); with
one worker this is the submission order, with `W > 1` workers any
permutation can occur.  A job that raises (`fails`) is logged and its
frame dropped from the output. -/

/-- Character-level scan keeping the suffix after the last `/`. -/
def baseNameChars : List Char → List Char → List Char
  | [], acc => acc.reverse
  | c :: cs, acc =>
    if c = '/' then baseNameChars cs [] else baseNameChars cs (c :: acc)

/-- `os.path.basename` on a `/`-separated path. -/
def baseName (s : String) : String := ⟨baseNameChars s.data []⟩

/-- Output path written by `_preprocess_single_frame`:
`os.path.join(output_dir, os.path.basename(frame_path))`. -/
def processedPath (outputDir framePath : String) : String :=
  outputDir ++ "/" ++ baseName framePath

/-- `preprocess_frames` under completion schedule `order`. -/
def preprocess_frames (outputDir : String) (framePaths : List String)
    (order : List Nat) (fails : String → Bool) : List String :=
  order.filterMap (fun i =>
    match framePaths[i]? with
    | some p => if fails p then none else some (processedPath outputDir p)
    | none => none)

/-- C1 (what the code does at the failing input): with two frames and a
pool of `W = 2` workers whose second job completes first (completion
schedule `[1, 0]`), `preprocess_frames` returns the processed paths in
completion order: entry `0` is the output of input frame `1`, which is a
different path from the output of input frame `0`. -/
theorem preprocess_frames_completion_order :
    preprocess_frames "out" ["a", "b"] [1, 0] (fun _ => false)
      = [processedPath "out" "b", processedPath "out" "a"]
    ∧ processedPath "out" "b" ≠ processedPath "out" "a" := by
  constructor
  · rfl
  · decide

/-! ## Video composer (`VideoProcessor.frames_to_video`) -/

/-- Frame dimensions `(height, width)` as read by `cv2.imread`. -/
structure Dim where
  height : Nat
  width : Nat
deriving DecidableEq

/-- `frames_to_video`: `load` stands for `cv2.imread` (`none` when a frame
file cannot be read).  The result is the list of dimensions of the frames
actually written to the encoder, or the raised error.  The reference
dimensions come from `frame_paths[0]`, which must itself be readable;
every later readable frame whose dimensions differ is resized to the
reference; unreadable later frames are skipped with a warning. -/
def frames_to_video (load : String → Option Dim) (framePaths : List String) :
    Except String (List Dim) :=
  match framePaths with
  | [] => .error "frame list is empty"
  | p0 :: _ =>
    match load p0 with
    | none => .error "cannot read first frame"
    | some d0 =>
      .ok (framePaths.filterMap (fun p =>
        (load p).map (fun d => if d ≠ d0 then d0 else d)))

/-- The loader of the C6 counterexample: frame `"a"` is unreadable, frame
`"b"` reads with dimensions `2 × 2`. -/
def cexLoad : String → Option Dim :=
  fun s => if s = "b" then some ⟨2, 2⟩ else none

/-- C6 counterexample: when the first listed frame fails to load, the
composer raises instead of skipping it and taking the reference
dimensions from the first *valid* frame (`"b"`). -/
theorem frames_to_video_first_unreadable_cex :
    frames_to_video cexLoad ["a", "b"] = .error "cannot read first frame"
    ∧ cexLoad "b" = some ⟨2, 2⟩ := by
  constructor
  · rfl
  · rfl

/-- C6 amended: an empty input fails; the reference dimensions come from
the first listed frame, which must itself load (otherwise the call
fails); when it loads, the call succeeds, every written frame has the
reference dimensions (mismatched frames are resized, never aborting),
and the written count is the number of readable frames, at most the
input count (unreadable later frames are skipped, non-fatally). -/
theorem frames_to_video_spec (load : String → Option Dim)
    (framePaths : List String) :
    (framePaths = [] →
      frames_to_video load framePaths = .error "frame list is empty")
    ∧ (∀ p0 rest, framePaths = p0 :: rest →
        (load p0 = none →
          frames_to_video load framePaths = .error "cannot read first frame")
        ∧ (∀ d0, load p0 = some d0 →
            ∃ written, frames_to_video load framePaths = .ok written
              ∧ (∀ d ∈ written, d = d0)
              ∧ written.length = (framePaths.filterMap load).length
              ∧ written.length ≤ framePaths.length)) := by
  refine ⟨fun h => by rw [h]; rfl, fun p0 rest hl => ⟨fun h0 => ?_, ?_⟩⟩
  · rw [hl]
    simp [frames_to_video, h0]
  · intro d0 hd0
    refine ⟨(framePaths.filterMap load).map (fun d => if d ≠ d0 then d0 else d),
      ?_, ?_, ?_, ?_⟩
    · rw [hl]
      simp [frames_to_video, hd0, List.map_filterMap, hl]
    · intro d hd
      rcases List.mem_map.mp hd with ⟨d', _, hd'⟩
      by_cases hne : d' ≠ d0
      · rw [if_pos hne] at hd'
        exact hd'.symm
      · rw [if_neg hne] at hd'
        push_neg at hne
        rw [← hd', hne]
    · rw [List.length_map]
    · rw [List.length_map]
      exact List.length_filterMap_le _ _

/-- Witness for C6 (amended): first frame readable (dimensions `2 × 2`),
second unreadable: the call succeeds and writes one frame, fewer than
the input count. -/
theorem frames_to_video_spec_witness :
    ∃ written, frames_to_video cexLoad ["b", "a"] = .ok written
      ∧ (∀ d ∈ written, d = (⟨2, 2⟩ : Dim))
      ∧ written.length = ((["b", "a"] : List String).filterMap cexLoad).length
      ∧ written.length ≤ (["b", "a"] : List String).length :=
  ((frames_to_video_spec cexLoad ["b", "a"]).2 "b" ["a"] rfl).2 ⟨2, 2⟩ rfl

end VideoProcessor

/-! ## Workflow orchestration core (`workflow/manager.py`)

The `WorkflowManager` session state is embedded field by field; each
Python field assignment becomes one state mutation recorded in a `trace`
of snapshots (`_reset_state`, a block of eleven consecutive assignments
re-initialising the session, is taken as one compound mutation).
`time.time()` is a strictly increasing clock.  The statement
`self.end_time = time.time()` is additionally counted in
`endTimeWrites`, so "the end timestamp is assigned exactly once" can be
read off a run (`_reset_state` clears the field to `None`; that is not a
timestamp assignment).  External effects — decoding, preprocessing, the
remote service — enter through an `Env` of step outcomes, `.error`
standing for a raised exception. -/

namespace WorkflowManager

/-- The status constants of `WorkflowManager`, including the ad-hoc
`"local_replacement_preprocessing"` string status. -/
inductive Status
  | idle
  | preparing
  | extractingFrames
  | preprocessingFrames
  | localReplacementPreprocessing
  | uploadingFrames
  | executingWorkflow
  | downloadingResults
  | composingVideo
  | completed
  | failed
  | canceled
deriving DecidableEq

/-- `status in [STATUS_COMPLETED, STATUS_FAILED, STATUS_CANCELED]`. -/
def Status.isTerminal : Status → Bool
  | .completed => true
  | .failed => true
  | .canceled => true
  | _ => false

/-- The mutable session fields of `WorkflowManager`. -/
structure ManagerState where
  workflowId : Option String
  status : Status
  progress : Rat
  startTime : Option Nat
  endTime : Option Nat
  workingDir : Option String
  inputVideoPath : Option String
  outputVideoPath : Option String
  framePaths : List String
  processedFramePaths : List String
  taskId : Option String
deriving DecidableEq

/-- One run of the manager: current state, clock, snapshot trace of the
states after each mutation, the count of `self.end_time = time.time()`
statements executed, and the frame batches uploaded to the remote
service, keyed by task id. -/
structure Run where
  st : ManagerState
  clock : Nat
  trace : List ManagerState
  endTimeWrites : Nat
  uploads : List (String × List String)
deriving DecidableEq

/-- A run starting from state `s0` with clock `c0`, before any mutation
of the current call. -/
def initRun (s0 : ManagerState) (c0 : Nat) : Run :=
  { st := s0, clock := c0, trace := [], endTimeWrites := 0, uploads := [] }

/-- Apply one field mutation and snapshot the result. -/
def mutate (r : Run) (f : ManagerState → ManagerState) : Run :=
  let st' := f r.st
  { r with st := st', trace := r.trace ++ [st'] }

/-- `time.time()`: read the clock, then advance it. -/
def tick (r : Run) : Nat × Run := (r.clock, { r with clock := r.clock + 1 })

/-- `_update_status`. -/
def updateStatus (s : Status) (r : Run) : Run :=
  mutate r (fun st => { st with status := s })

/-- `_update_progress`: clamps into `[0, 100]`. -/
def updateProgress (p : Rat) (r : Run) : Run :=
  mutate r (fun st => { st with progress := min 100 (max 0 p) })

/-- `_set_failed_state`: status to `failed`, then
`self.end_time = time.time()`. -/
def setFailedState (r : Run) : Run :=
  let r1 := mutate r (fun st => { st with status := .failed })
  let (t, r2) := tick r1
  let r3 := mutate r2 (fun st => { st with endTime := some t })
  { r3 with endTimeWrites := r3.endTimeWrites + 1 }

/-- `_reset_state`, as one compound mutation. -/
def resetState (r : Run) : Run :=
  mutate r (fun st =>
    { st with
        workflowId := none, status := .idle, progress := 0,
        startTime := none, endTime := none, workingDir := none,
        inputVideoPath := none, outputVideoPath := none,
        framePaths := [], processedFramePaths := [], taskId := none })

/-- Outcomes of the external calls made by one `start_workflow` run;
`.error` stands for the call raising. -/
structure Env where
  inputExists : Bool
  inputVideo : String
  newWorkflowId : String
  workingDirName : String
  outputName : String
  videoInfoResult : Except String Unit
  extractResult : Except String (List String)
  preprocessed : List String → List String
  hasReplacement : Bool
  replacedOutputs : List String → List String
  connectionOk : Bool
  submitResult : Except String (Option String)
  uploadOutcome : Except String Unit
  waitOutcome : Except String Unit
  composeOutcome : Except String Unit

/-- Run the continuation on `.ok`; on `.error` apply the single
`except` handler of `_execute_workflow_steps` (set failed state,
re-raise). -/
def orFail (x : Except String α) (r : Run)
    (k : α → Run × Option String) : Run × Option String :=
  match x with
  | .error e => (setFailedState r, some e)
  | .ok a => k a

/-- Lexicographic comparison of character lists. -/
def charListLe : List Char → List Char → Bool
  | [], _ => true
  | _ :: _, [] => false
  | a :: as, b :: bs =>
    if a < b then true else if b < a then false else charListLe as bs

/-- Lexicographic comparison of path names. -/
def strLe (a b : String) : Bool := charListLe a.data b.data

/-- Insert a name into an ascending list of names. -/
def insertSorted (x : String) : List String → List String
  | [] => [x]
  | y :: ys => if strLe x y then x :: y :: ys else y :: insertSorted x ys

/-- `sorted(...)` over the file names of a directory listing (insertion
sort: ascending order, same members). -/
def sortedListing : List String → List String
  | [] => []
  | x :: xs => insertSorted x (sortedListing xs)

/-- `_execute_workflow_steps`, including its own `except` handler. -/
def executeSteps (env : Env) (r0 : Run) : Run × Option String :=
  let r1 := updateStatus .preparing r0
  orFail env.videoInfoResult r1 (fun _ =>
    let r2 := updateStatus .extractingFrames r1
    orFail env.extractResult r2 (fun frames =>
      let r3 := mutate r2 (fun st => { st with framePaths := frames })
      let r4 := updateProgress 20 r3
      let r5 := updateStatus .preprocessingFrames r4
      let processed := env.preprocessed frames
      let r6 := mutate r5 (fun st => { st with processedFramePaths := processed })
      let r7 := updateProgress 40 r6
      let r8 :=
        if env.hasReplacement then
          let ra := updateStatus .localReplacementPreprocessing r7
          mutate ra (fun st =>
            { st with processedFramePaths := env.replacedOutputs processed })
        else r7
      if env.connectionOk = false then
        (setFailedState r8, some "cannot connect to the ComfyUI API service")
      else
        let r9 := updateStatus .uploadingFrames r8
        orFail env.submitResult r9 (fun tid? =>
          let r10 := mutate r9 (fun st => { st with taskId := tid? })
          match tid? with
          | none => (setFailedState r10, some "no task id returned")
          | some tid =>
            let dirFiles := sortedListing processed
            if dirFiles.isEmpty then
              (setFailedState r10, some "no video frames found in directory")
            else
              orFail env.uploadOutcome r10 (fun _ =>
                let r11 := { r10 with uploads := r10.uploads ++ [(tid, dirFiles)] }
                let r12 := updateProgress 60 r11
                let r13 := updateStatus .executingWorkflow r12
                orFail env.waitOutcome r13 (fun _ =>
                  let r14 := updateProgress 80 r13
                  let r15 := updateStatus .downloadingResults r14
                  let resultFrames := r15.st.processedFramePaths
                  let r16 := updateProgress 90 r15
                  let r17 := updateStatus .composingVideo r16
                  if resultFrames.isEmpty then
                    (setFailedState r17, some "frame list is empty")
                  else
                    orFail env.composeOutcome r17 (fun _ =>
                      let r18 := updateProgress 100 r17
                      let r19 := updateStatus .completed r18
                      let (t, r20) := tick r19
                      let r21 := mutate r20 (fun st => { st with endTime := some t })
                      ({ r21 with endTimeWrites := r21.endTimeWrites + 1 },
                        none)))))))

/-- The session initialisation of `start_workflow` after the existence
check: state reset, fresh identifier, input path, `preparing` status,
start time, working directory and output path. -/
def startPrelude (env : Env) (r : Run) : Run :=
  let r1 := resetState r
  let r2 := mutate r1 (fun st => { st with workflowId := some env.newWorkflowId })
  let r3 := mutate r2 (fun st => { st with inputVideoPath := some env.inputVideo })
  let r4 := mutate r3 (fun st => { st with status := .preparing })
  let (t, r5) := tick r4
  let r6 := mutate r5 (fun st => { st with startTime := some t })
  let r7 := mutate r6 (fun st => { st with workingDir := some env.workingDirName })
  mutate r7 (fun st => { st with outputVideoPath := some env.outputName })

/-- `start_workflow`: existence check, session initialisation, the step
sequence, and its own `except` handler (which calls `_set_failed_state`
a second time when a step raised and re-raises). -/
def start_workflow (env : Env) (r : Run) : Run × Option String :=
  if env.inputExists = false then
    (setFailedState r, some "input video does not exist")
  else
    match executeSteps env (startPrelude env r) with
    | (r9, none) => (r9, none)
    | (r9, some e) => (setFailedState r9, some e)

/-- `cancel_workflow`: guarded no-op on a terminal status, otherwise
cancel, record the end time, best-effort remote cancel (state-free).
The returned `Bool` is the `success` field of the result dict. -/
def cancel_workflow (r : Run) : Run × Bool :=
  if r.st.status.isTerminal then
    (r, false)
  else
    let r1 := mutate r (fun st => { st with status := .canceled })
    let (t, r2) := tick r1
    let r3 := mutate r2 (fun st => { st with endTime := some t })
    ({ r3 with endTimeWrites := r3.endTimeWrites + 1 }, true)

/-! ## `cleanup` and the file system (`cleanup`, `utils/file_utils.py`) -/

/-- The file system, as the list of currently existing paths. -/
abbrev FileSys := List String

/-- `os.path.exists`. -/
def pathExists (fs : FileSys) (p : String) : Bool := fs.contains p

/-- `shutil.rmtree(d, ignore_errors=True)`: removes `d` and everything
below it, raising nothing. -/
def rmtree (fs : FileSys) (d : String) : FileSys :=
  fs.filter (fun p => !(p == d || p.startsWith (d ++ "/")))

/-- `file_utils.remove_directory`: `rmtree` guarded by `os.path.exists`. -/
def remove_directory (fs : FileSys) (d : String) : FileSys :=
  if pathExists fs d then rmtree fs d else fs

/-- `os.remove`: raises `FileNotFoundError` when the path is absent. -/
def osRemove (fs : FileSys) (p : String) : Except String FileSys :=
  if pathExists fs p then .ok (fs.filter (fun q => !(q == p)))
  else .error "FileNotFoundError"

/-- First phase of `WorkflowManager.cleanup`: close the client (idempotent,
no file-system effect) and remove the working directory when it still
exists. -/
def cleanupStage1 (st : ManagerState) (fs : FileSys) : FileSys :=
  match st.workingDir with
  | some d => if pathExists fs d then remove_directory fs d else fs
  | none => fs

/-- `WorkflowManager.cleanup`: the working-directory phase, then, when
`keep_results` is false, deletion of the output video when it exists.
The result is the file system after the call, or the raised error. -/
def cleanup (st : ManagerState) (keepResults : Bool) (fs : FileSys) :
    Except String FileSys :=
  let fs1 := cleanupStage1 st fs
  if keepResults = false then
    match st.outputVideoPath with
    | some o => if pathExists fs1 o then osRemove fs1 o else .ok fs1
    | none => .ok fs1
  else .ok fs1

/-- `cleanup` never raises: the one fallible primitive it uses,
`os.remove`, is guarded by an existence check, and directory removal
ignores errors. -/
theorem cleanup_ok (st : ManagerState) (keep : Bool) (fs : FileSys) :
    ∃ fs', cleanup st keep fs = .ok fs' := by
  unfold cleanup
  cases keep with
  | true => exact ⟨cleanupStage1 st fs, by simp⟩
  | false =>
    cases ho : st.outputVideoPath with
    | none => exact ⟨cleanupStage1 st fs, by simp [ho]⟩
    | some o =>
      by_cases he : pathExists (cleanupStage1 st fs) o
      · exact ⟨(cleanupStage1 st fs).filter (fun q => !(q == o)),
          by simp [ho, he, osRemove]⟩
      · exact ⟨cleanupStage1 st fs, by simp [ho, he]⟩

/-- Membership survives `List.filter` only forward: a path absent from
`fs` is absent from any filtering of `fs`. -/
theorem pathExists_filter (fs : FileSys) (f : String → Bool) (p : String) :
    pathExists (fs.filter f) p = true → pathExists fs p = true := by
  simp only [pathExists, List.elem_eq_mem, decide_eq_true_eq, List.mem_filter]
  exact fun h => h.1

/-- After `rmtree fs d`, the directory `d` is gone. -/
theorem pathExists_rmtree_self (fs : FileSys) (d : String) :
    pathExists (rmtree fs d) d = false := by
  simp [pathExists, rmtree, List.mem_filter]

/-- The working directory is absent after the first `cleanup` phase. -/
theorem cleanupStage1_absent (st : ManagerState) (fs : FileSys) (d : String)
    (hd : st.workingDir = some d) :
    pathExists (cleanupStage1 st fs) d = false := by
  unfold cleanupStage1
  rw [hd]
  by_cases he : pathExists fs d
  · simp only [if_pos he, remove_directory, he, if_true]
    exact pathExists_rmtree_self fs d
  · simp [he]

/-- Any path in the file system returned by `cleanup` was already in the
file system after its first phase. -/
theorem cleanup_sub (st : ManagerState) (keep : Bool) (fs fs' : FileSys)
    (h : cleanup st keep fs = .ok fs') (p : String)
    (hp : pathExists fs' p = true) :
    pathExists (cleanupStage1 st fs) p = true := by
  unfold cleanup at h
  cases keep with
  | true =>
    simp at h
    subst h
    exact hp
  | false =>
    cases ho : st.outputVideoPath with
    | none =>
      simp [ho] at h
      subst h
      exact hp
    | some o =>
      by_cases he : pathExists (cleanupStage1 st fs) o
      · simp [ho, he, osRemove] at h
        subst h
        exact pathExists_filter _ _ _ hp
      · simp [ho, he] at h
        subst h
        exact hp

/-- C9: one `cleanup` call returns without raising and leaves the
working directory absent; a second call in succession also returns
without raising. -/
theorem cleanup_idempotent (st : ManagerState) (keep : Bool) (fs : FileSys) :
    ∃ fs1, cleanup st keep fs = .ok fs1
      ∧ (∀ d, st.workingDir = some d → pathExists fs1 d = false)
      ∧ ∃ fs2, cleanup st keep fs1 = .ok fs2 := by
  obtain ⟨fs1, h1⟩ := cleanup_ok st keep fs
  refine ⟨fs1, h1, ?_, cleanup_ok st keep fs1⟩
  intro d hd
  cases hf : pathExists fs1 d with
  | false => rfl
  | true =>
    have := cleanup_sub st keep fs fs1 h1 d hf
    rw [cleanupStage1_absent st fs d hd] at this
    exact absurd this (by simp)

/-! ## How often `self.end_time = time.time()` runs in one start call -/

theorem sortedListing_nil : sortedListing [] = [] := rfl

theorem insertSorted_ne_nil (x : String) (l : List String) :
    insertSorted x l ≠ [] := by
  cases l with
  | nil => simp [insertSorted]
  | cons y ys =>
    cases h : strLe x y <;> simp [insertSorted, h]

/-- A sorted directory listing is empty exactly when the directory is. -/
theorem sortedListing_eq_nil (l : List String) :
    sortedListing l = [] ↔ l = [] := by
  cases l with
  | nil => simp [sortedListing]
  | cons x xs =>
    simp only [sortedListing]
    exact ⟨fun h => absurd h (insertSorted_ne_nil x _), fun h => by cases h⟩

theorem mem_insertSorted (a x : String) (l : List String) :
    a ∈ insertSorted x l ↔ a = x ∨ a ∈ l := by
  induction l with
  | nil => simp [insertSorted]
  | cons y ys ih =>
    cases h : strLe x y
    · simp [insertSorted, h, ih]
      tauto
    · simp [insertSorted, h]

/-- Sorting a directory listing preserves its members. -/
theorem mem_sortedListing (a : String) (l : List String) :
    a ∈ sortedListing l ↔ a ∈ l := by
  induction l with
  | nil => simp [sortedListing]
  | cons x xs ih =>
    simp [sortedListing, mem_insertSorted, ih]

/-- Both outcomes of `_execute_workflow_steps` run the
`self.end_time = time.time()` statement exactly once: the success path at
completion, and every raising path through the inner `except` handler. -/
theorem executeSteps_writes (env : Env) (r : Run) :
    ((executeSteps env r).2 = none →
      (executeSteps env r).1.endTimeWrites = r.endTimeWrites + 1
      ∧ (executeSteps env r).1.st.status = .completed)
    ∧ (∀ e, (executeSteps env r).2 = some e →
      (executeSteps env r).1.endTimeWrites = r.endTimeWrites + 1
      ∧ (executeSteps env r).1.st.status = .failed) := by
  unfold executeSteps
  rcases hv : env.videoInfoResult with e | u
  · simp [orFail, sortedListing_nil, sortedListing_eq_nil, setFailedState, mutate, tick, updateStatus, hv]
  · rcases hx : env.extractResult with e | frames
    · simp [orFail, sortedListing_nil, sortedListing_eq_nil, setFailedState, mutate, tick, updateStatus, hx]
    · cases hconn : env.connectionOk with
      | false =>
        cases hrep : env.hasReplacement <;>
          simp [orFail, sortedListing_nil, sortedListing_eq_nil, setFailedState, mutate, tick, updateStatus,
            updateProgress, hv, hx, hconn, hrep]
      | true =>
        rcases hs : env.submitResult with e | tid?
        · cases hrep : env.hasReplacement <;>
            simp [orFail, sortedListing_nil, sortedListing_eq_nil, setFailedState, mutate, tick, updateStatus,
              updateProgress, hv, hx, hconn, hrep, hs]
        · cases tid? with
          | none =>
            cases hrep : env.hasReplacement <;>
              simp [orFail, sortedListing_nil, sortedListing_eq_nil, setFailedState, mutate, tick, updateStatus,
                updateProgress, hv, hx, hconn, hrep, hs]
          | some tid =>
            by_cases hemp : env.preprocessed frames = []
            · cases hrep : env.hasReplacement <;>
                simp [orFail, sortedListing_nil, sortedListing_eq_nil, setFailedState, mutate, tick, updateStatus,
                  updateProgress, hv, hx, hconn, hrep, hs, hemp]
            · rcases hu : env.uploadOutcome with e | uu
              · cases hrep : env.hasReplacement <;>
                  simp [orFail, sortedListing_nil, sortedListing_eq_nil, setFailedState, mutate, tick, updateStatus,
                    updateProgress, hv, hx, hconn, hrep, hs, hemp, hu]
              · rcases hw : env.waitOutcome with e | uw
                · cases hrep : env.hasReplacement <;>
                    simp [orFail, sortedListing_nil, sortedListing_eq_nil, setFailedState, mutate, tick, updateStatus,
                      updateProgress, hv, hx, hconn, hrep, hs, hemp, hu, hw]
                · cases hrep : env.hasReplacement with
                  | false =>
                    rcases hc : env.composeOutcome with e | uc <;>
                      simp [orFail, sortedListing_nil, sortedListing_eq_nil, setFailedState, mutate, tick,
                        updateStatus, updateProgress, hv, hx, hconn, hrep,
                        hs, hemp, hu, hw, hc]
                  | true =>
                    by_cases hres :
                        env.replacedOutputs (env.preprocessed frames) = []
                    · simp [orFail, sortedListing_nil, sortedListing_eq_nil, setFailedState, mutate, tick,
                        updateStatus, updateProgress, hv, hx, hconn, hrep,
                        hs, hemp, hu, hw, hres]
                    · rcases hc : env.composeOutcome with e | uc <;>
                        simp [orFail, sortedListing_nil, sortedListing_eq_nil, setFailedState, mutate, tick,
                          updateStatus, updateProgress, hv, hx, hconn, hrep,
                          hs, hemp, hu, hw, hres, hc]

/-- C2 amended: the end timestamp is written only on terminal
transitions, but not always exactly once: a successful run writes it
once (at completion), while a run in which a step raises writes it
twice — once in the inner handler of `_execute_workflow_steps`, and
again in the outer handler of `start_workflow`, the second write
overwriting the first with a later time.  Only a failure of the initial
existence check (which precedes `_execute_workflow_steps`) writes it
once. -/
theorem ended_at_write_count (env : Env) (s0 : ManagerState) (c0 : Nat) :
    ((start_workflow env (initRun s0 c0)).2 = none →
      (start_workflow env (initRun s0 c0)).1.endTimeWrites = 1
      ∧ (start_workflow env (initRun s0 c0)).1.st.status = .completed)
    ∧ (∀ e, (start_workflow env (initRun s0 c0)).2 = some e →
      (start_workflow env (initRun s0 c0)).1.st.status = .failed
      ∧ (start_workflow env (initRun s0 c0)).1.endTimeWrites
          = if env.inputExists then 2 else 1) := by
  cases hin : env.inputExists with
  | false =>
    refine ⟨fun h => ?_, fun e he => ⟨?_, ?_⟩⟩
    · simp [start_workflow, hin] at h
    · simp [start_workflow, hin, setFailedState, mutate, tick, initRun]
    · simp [start_workflow, hin, setFailedState, mutate, tick, initRun]
  | true =>
    have key := executeSteps_writes env (startPrelude env (initRun s0 c0))
    have hw : (startPrelude env (initRun s0 c0)).endTimeWrites = 0 := rfl
    rcases hE : executeSteps env (startPrelude env (initRun s0 c0))
      with ⟨r9, e?⟩
    rw [hE] at key
    dsimp only at key
    cases e? with
    | none =>
      have hk := key.1 rfl
      refine ⟨fun _ => ⟨?_, ?_⟩, fun e he => ?_⟩
      · simp only [start_workflow, hin]
        simp [hE, hk.1, hw]
      · simp only [start_workflow, hin]
        simp [hE, hk.2]
      · simp [start_workflow, hin, hE] at he
    | some e0 =>
      have hk := key.2 e0 rfl
      refine ⟨fun h => ?_, fun e he => ⟨?_, ?_⟩⟩
      · simp [start_workflow, hin, hE] at h
      · simp only [start_workflow, hin]
        simp [hE, setFailedState, mutate, tick]
      · have h1 : r9.endTimeWrites = 1 := by rw [hk.1, hw]
        simp only [start_workflow, hin]
        simp [hE, setFailedState, mutate, tick, h1]

/-! ## Concrete fixtures shared by witnesses and counterexamples -/

/-- A fresh manager state, as set up by `__init__`. -/
def freshState : ManagerState :=
  { workflowId := none, status := .idle, progress := 0, startTime := none,
    endTime := none, workingDir := none, inputVideoPath := none,
    outputVideoPath := none, framePaths := [], processedFramePaths := [],
    taskId := none }

/-- A manager state left behind by a completed session. -/
def doneState : ManagerState :=
  { workflowId := some "wf-0", status := .completed, progress := 100,
    startTime := some 3, endTime := some 9,
    workingDir := some "temp/workflow_old",
    inputVideoPath := some "old.mp4",
    outputVideoPath := some "outputs/old_replicated.mp4",
    framePaths := ["frames/frame_000000.png"],
    processedFramePaths := ["processed/frame_000000.png"],
    taskId := some "task-0" }

/-- An environment in which every external step succeeds. -/
def okEnv : Env :=
  { inputExists := true, inputVideo := "in.mp4", newWorkflowId := "wf-1",
    workingDirName := "temp/workflow_1",
    outputName := "outputs/in_replicated.mp4",
    videoInfoResult := .ok (),
    extractResult := .ok ["frames/frame_000000.png", "frames/frame_000001.png"],
    preprocessed := fun l => l.map (fun p => "processed/" ++ p),
    hasReplacement := false,
    replacedOutputs := fun l => l.map (fun p => "replaced/" ++ p),
    connectionOk := true, submitResult := .ok (some "task-1"),
    uploadOutcome := .ok (), waitOutcome := .ok (), composeOutcome := .ok () }

/-- C2 counterexample: when extraction raises, the end timestamp is
written twice in the same session — the trace still holds the failed
snapshot with `end_time = 1` from the inner handler, and the outer
handler then overwrote the field with the later time `2`. -/
theorem ended_at_double_write_cex :
    (start_workflow { okEnv with extractResult := .error "cannot open video" }
        (initRun freshState 0)).1.endTimeWrites = 2
    ∧ (start_workflow { okEnv with extractResult := .error "cannot open video" }
        (initRun freshState 0)).1.st.endTime = some 2
    ∧ ∃ s ∈ (start_workflow { okEnv with extractResult := .error "cannot open video" }
        (initRun freshState 0)).1.trace,
        s.status = .failed ∧ s.endTime = some 1 := by
  refine ⟨rfl, rfl, ?_⟩
  decide

/-- Witness for C2 (amended): in the all-success environment the end
timestamp is written exactly once and the session completes. -/
theorem ended_at_write_count_witness :
    (start_workflow okEnv (initRun freshState 0)).2 = none
    ∧ (start_workflow okEnv (initRun freshState 0)).1.endTimeWrites = 1
    ∧ (start_workflow okEnv (initRun freshState 0)).1.st.status = .completed := by
  have h : (start_workflow okEnv (initRun freshState 0)).2 = none := by decide
  exact ⟨h, ((ended_at_write_count okEnv freshState 0).1 h).1,
    ((ended_at_write_count okEnv freshState 0).1 h).2⟩

/-! ## C3: zero extracted frames -/

/-- C3 counterexample: when extraction yields zero frames, the
extraction step raises nothing and the pipeline proceeds: the twelfth
mutation of the run is the transition to `preprocessing_frames` with an
empty frame list.  The session fails only later, at the upload step,
whose directory scan finds no frames. -/
theorem zero_frames_proceeds_cex :
    ((start_workflow { okEnv with extractResult := .ok [] }
        (initRun freshState 0)).1.trace.map
          (fun s => (s.status, s.framePaths)))[11]?
        = some (.preprocessingFrames, [])
    ∧ (start_workflow { okEnv with extractResult := .ok [] }
        (initRun freshState 0)).2
        = some "no video frames found in directory" := by
  constructor
  · decide
  · decide

/-- C3 amended: zero extracted frames do not fail the extraction step;
the session transitions into `preprocessing_frames` with an empty frame
list and only fails later (never reaching `completed`), because the
upload step raises on an empty frame directory. -/
theorem zero_frames_behaviour (env : Env) (s0 : ManagerState) (c0 : Nat)
    (hin : env.inputExists = true)
    (hv : env.videoInfoResult = .ok ())
    (hx : env.extractResult = .ok [])
    (hp : env.preprocessed [] = []) :
    ((start_workflow env (initRun s0 c0)).1.trace.map
        (fun s => (s.status, s.framePaths)))[11]?
      = some (.preprocessingFrames, [])
    ∧ (start_workflow env (initRun s0 c0)).2.isSome
    ∧ (start_workflow env (initRun s0 c0)).1.st.status = .failed := by
  cases hconn : env.connectionOk with
  | false =>
    cases hrep : env.hasReplacement <;>
      simp [start_workflow, hin, executeSteps, orFail, startPrelude,
        initRun, resetState, mutate, tick, updateStatus, updateProgress,
        setFailedState, hv, hx, hp, hconn, hrep]
  | true =>
    rcases hs : env.submitResult with e | tid?
    · cases hrep : env.hasReplacement <;>
        simp [start_workflow, hin, executeSteps, orFail, startPrelude,
          initRun, resetState, mutate, tick, updateStatus, updateProgress,
          setFailedState, hv, hx, hp, hconn, hrep, hs]
    · cases tid? with
      | none =>
        cases hrep : env.hasReplacement <;>
          simp [start_workflow, hin, executeSteps, orFail, startPrelude,
            initRun, resetState, mutate, tick, updateStatus, updateProgress,
            setFailedState, hv, hx, hp, hconn, hrep, hs]
      | some tid =>
        cases hrep : env.hasReplacement <;>
          simp [start_workflow, hin, executeSteps, orFail, startPrelude,
            initRun, resetState, mutate, tick, updateStatus, updateProgress,
            setFailedState, sortedListing_nil, hv, hx, hp, hconn, hrep, hs]

/-- Witness for C3 (amended), at the concrete zero-frame environment. -/
theorem zero_frames_behaviour_witness :
    ((start_workflow { okEnv with extractResult := .ok [] }
        (initRun freshState 0)).1.trace.map
          (fun s => (s.status, s.framePaths)))[11]?
      = some (.preprocessingFrames, [])
    ∧ (start_workflow { okEnv with extractResult := .ok [] }
        (initRun freshState 0)).2.isSome
    ∧ (start_workflow { okEnv with extractResult := .ok [] }
        (initRun freshState 0)).1.st.status = .failed :=
  zero_frames_behaviour { okEnv with extractResult := .ok [] } freshState 0
    rfl rfl rfl rfl

/-! ## C4: what is uploaded -/

/-- The all-success environment with local replacement enabled. -/
def replEnv : Env := { okEnv with hasReplacement := true }

/-- C4 counterexample: with replacement enabled the session completes,
`processed_frame_paths` names the replaced frames, but the upload sent
the files of the *pre-replacement* processing directory: the uploaded
set is not the session's processed frame set. -/
theorem upload_ignores_replacement_cex :
    (start_workflow replEnv (initRun freshState 0)).2 = none
    ∧ (start_workflow replEnv (initRun freshState 0)).1.uploads
        = [("task-1", ["processed/frames/frame_000000.png",
                       "processed/frames/frame_000001.png"])]
    ∧ (start_workflow replEnv (initRun freshState 0)).1.st.processedFramePaths
        = ["replaced/processed/frames/frame_000000.png",
           "replaced/processed/frames/frame_000001.png"]
    ∧ ¬ ("processed/frames/frame_000000.png"
          ∈ (start_workflow replEnv (initRun freshState 0)).1.st.processedFramePaths) := by
  refine ⟨by decide, by decide, by decide, by decide⟩

/-- C4 amended: on a successful run, the upload sends exactly the files
of the preprocessing output directory, keyed to the submitted task id.
With no replacement enabled this uploaded set has the same members as
the session's final `processed_frame_paths`; with replacement enabled the
final `processed_frame_paths` is the replacement output, which is not
what was uploaded. -/
theorem upload_set (env : Env) (s0 : ManagerState) (c0 : Nat)
    (frames : List String)
    (hx : env.extractResult = .ok frames)
    (hok : (start_workflow env (initRun s0 c0)).2 = none) :
    ∃ tid, env.submitResult = .ok (some tid)
      ∧ (start_workflow env (initRun s0 c0)).1.st.taskId = some tid
      ∧ (start_workflow env (initRun s0 c0)).1.uploads
          = [(tid, sortedListing (env.preprocessed frames))]
      ∧ (env.hasReplacement = false →
          (start_workflow env (initRun s0 c0)).1.st.processedFramePaths
            = env.preprocessed frames
          ∧ ∀ x, x ∈ sortedListing (env.preprocessed frames)
              ↔ x ∈ (start_workflow env (initRun s0 c0)).1.st.processedFramePaths)
      ∧ (env.hasReplacement = true →
          (start_workflow env (initRun s0 c0)).1.st.processedFramePaths
            = env.replacedOutputs (env.preprocessed frames)) := by
  cases hin : env.inputExists with
  | false => simp [start_workflow, hin] at hok
  | true =>
    rcases hv : env.videoInfoResult with e | u
    · simp [start_workflow, hin, executeSteps, orFail, startPrelude, initRun, resetState, mutate, tick, updateStatus, updateProgress, setFailedState, hv] at hok
    · cases hconn : env.connectionOk with
      | false =>
        cases hrep : env.hasReplacement <;>
          simp [start_workflow, hin, executeSteps, orFail, startPrelude, initRun, resetState, mutate, tick, updateStatus, updateProgress, setFailedState, hv, hx,
            hconn, hrep] at hok
      | true =>
        rcases hs : env.submitResult with e | tid?
        · cases hrep : env.hasReplacement <;>
            simp [start_workflow, hin, executeSteps, orFail, startPrelude, initRun, resetState, mutate, tick, updateStatus, updateProgress, setFailedState, hv, hx,
              hconn, hrep, hs] at hok
        · cases tid? with
          | none =>
            cases hrep : env.hasReplacement <;>
              simp [start_workflow, hin, executeSteps, orFail, startPrelude, initRun, resetState, mutate, tick, updateStatus, updateProgress, setFailedState, hv, hx,
                hconn, hrep, hs] at hok
          | some tid =>
            by_cases hemp : env.preprocessed frames = []
            · cases hrep : env.hasReplacement <;>
                simp [start_workflow, hin, executeSteps, orFail, startPrelude, initRun, resetState, mutate, tick, updateStatus, updateProgress, setFailedState,
                  sortedListing_nil, sortedListing_eq_nil, hv, hx,
                  hconn, hrep, hs, hemp] at hok
            · rcases hu : env.uploadOutcome with e | uu
              · cases hrep : env.hasReplacement <;>
                  simp [start_workflow, hin, executeSteps, orFail, startPrelude, initRun, resetState, mutate, tick, updateStatus, updateProgress, setFailedState,
                    sortedListing_eq_nil, hv, hx, hconn, hrep, hs,
                    hemp, hu] at hok
              · rcases hw : env.waitOutcome with e | uw
                · cases hrep : env.hasReplacement <;>
                    simp [start_workflow, hin, executeSteps, orFail, startPrelude, initRun, resetState, mutate, tick, updateStatus, updateProgress, setFailedState,
                      sortedListing_eq_nil, hv, hx, hconn, hrep, hs,
                      hemp, hu, hw] at hok
                · cases hrep : env.hasReplacement with
                  | false =>
                    rcases hc : env.composeOutcome with e | uc
                    · simp [start_workflow, hin, executeSteps, orFail, startPrelude, initRun, resetState, mutate, tick, updateStatus, updateProgress, setFailedState,
                        sortedListing_eq_nil, hv, hx, hconn, hrep, hs,
                        hemp, hu, hw, hc] at hok
                    · refine ⟨tid, rfl, ?_, ?_, fun _ => ⟨?_, fun x => ?_⟩,
                        fun hcontra => absurd hcontra (by simp)⟩
                      · simp [start_workflow, hin, executeSteps, orFail, startPrelude, initRun, resetState, mutate, tick, updateStatus, updateProgress, setFailedState,
                          sortedListing_eq_nil, mutate, tick, updateStatus,
                          updateProgress, hv, hx, hconn, hrep, hs, hemp,
                          hu, hw, hc]
                      · simp [start_workflow, hin, executeSteps, orFail, startPrelude, initRun, resetState, mutate, tick, updateStatus, updateProgress, setFailedState,
                          sortedListing_eq_nil, mutate, tick, updateStatus,
                          updateProgress, hv, hx, hconn, hrep, hs, hemp,
                          hu, hw, hc]
                      · simp [start_workflow, hin, executeSteps, orFail, startPrelude, initRun, resetState, mutate, tick, updateStatus, updateProgress, setFailedState,
                          sortedListing_eq_nil, mutate, tick, updateStatus,
                          updateProgress, hv, hx, hconn, hrep, hs, hemp,
                          hu, hw, hc]
                      · rw [mem_sortedListing]
                        have hfin : (start_workflow env (initRun s0 c0)).1.st.processedFramePaths
                            = env.preprocessed frames := by
                          simp [start_workflow, hin, executeSteps, orFail, startPrelude, initRun, resetState, mutate, tick, updateStatus, updateProgress, setFailedState,
                            sortedListing_eq_nil, mutate, tick, updateStatus,
                            updateProgress, hv, hx, hconn, hrep, hs, hemp,
                            hu, hw, hc]
                        rw [hfin]
                  | true =>
                    by_cases hres :
                        env.replacedOutputs (env.preprocessed frames) = []
                    · simp [start_workflow, hin, executeSteps, orFail, startPrelude, initRun, resetState, mutate, tick, updateStatus, updateProgress, setFailedState,
                        sortedListing_eq_nil, hv, hx, hconn, hrep, hs,
                        hemp, hu, hw, hres] at hok
                    · rcases hc : env.composeOutcome with e | uc
                      · simp [start_workflow, hin, executeSteps, orFail, startPrelude, initRun, resetState, mutate, tick, updateStatus, updateProgress, setFailedState,
                          sortedListing_eq_nil, hv, hx, hconn, hrep, hs,
                          hemp, hu, hw, hres, hc] at hok
                      · refine ⟨tid, rfl, ?_, ?_,
                          fun hcontra => absurd hcontra (by simp),
                          fun _ => ?_⟩
                        · simp [start_workflow, hin, executeSteps, orFail, startPrelude, initRun, resetState, mutate, tick, updateStatus, updateProgress, setFailedState,
                            sortedListing_eq_nil, mutate, tick, updateStatus,
                            updateProgress, hv, hx, hconn, hrep, hs, hemp,
                            hu, hw, hres, hc]
                        · simp [start_workflow, hin, executeSteps, orFail, startPrelude, initRun, resetState, mutate, tick, updateStatus, updateProgress, setFailedState,
                            sortedListing_eq_nil, mutate, tick, updateStatus,
                            updateProgress, hv, hx, hconn, hrep, hs, hemp,
                            hu, hw, hres, hc]
                        · simp [start_workflow, hin, executeSteps, orFail, startPrelude, initRun, resetState, mutate, tick, updateStatus, updateProgress, setFailedState,
                            sortedListing_eq_nil, mutate, tick, updateStatus,
                            updateProgress, hv, hx, hconn, hrep, hs, hemp,
                            hu, hw, hres, hc]

/-- Witness for C4 (amended) in the all-success environment without
replacement. -/
theorem upload_set_witness :
    ∃ tid, okEnv.submitResult = .ok (some tid)
      ∧ (start_workflow okEnv (initRun freshState 0)).1.st.taskId = some tid
      ∧ (start_workflow okEnv (initRun freshState 0)).1.uploads
          = [(tid, sortedListing (okEnv.preprocessed
              ["frames/frame_000000.png", "frames/frame_000001.png"]))]
      ∧ (okEnv.hasReplacement = false →
          (start_workflow okEnv (initRun freshState 0)).1.st.processedFramePaths
            = okEnv.preprocessed
                ["frames/frame_000000.png", "frames/frame_000001.png"]
          ∧ ∀ x, x ∈ sortedListing (okEnv.preprocessed
                ["frames/frame_000000.png", "frames/frame_000001.png"])
              ↔ x ∈ (start_workflow okEnv
                  (initRun freshState 0)).1.st.processedFramePaths)
      ∧ (okEnv.hasReplacement = true →
          (start_workflow okEnv (initRun freshState 0)).1.st.processedFramePaths
            = okEnv.replacedOutputs (okEnv.preprocessed
                ["frames/frame_000000.png", "frames/frame_000001.png"])) :=
  upload_set okEnv freshState 0
    ["frames/frame_000000.png", "frames/frame_000001.png"] rfl (by decide)

/-! ## C7: progress monotonicity

Rather than enumerate runs, we carry an invariant through every
mutation: the progress snapshots so far form a non-decreasing sequence
inside `[0, 100]` whose last entry is the current progress value. -/

/-- The successive values of the `progress` field over the snapshots of
a run — what repeated `get_status()` calls observe during the call. -/
def progressTrace (r : Run) : List Rat := r.trace.map (fun s => s.progress)

/-- `cancel_workflow` never changes the progress value: a canceled
session freezes its progress. -/
theorem cancel_preserves_progress (r : Run) :
    ((cancel_workflow r).1).st.progress = r.st.progress := by
  unfold cancel_workflow
  cases h : r.st.status.isTerminal <;> simp [h, mutate, tick]

/-- The monotonicity invariant of one run: snapshots so far are
non-decreasing and within bounds, the current progress is within
bounds, and the last snapshot (when one exists) shows the current
progress. -/
def progressInv (r : Run) : Prop :=
  List.Chain' (· ≤ ·) (progressTrace r)
  ∧ (∀ p ∈ progressTrace r, 0 ≤ p ∧ p ≤ 100)
  ∧ 0 ≤ r.st.progress ∧ r.st.progress ≤ 100
  ∧ ((progressTrace r).getLast? = some r.st.progress ∨ progressTrace r = [])

theorem progressTrace_mutate (r : Run) (f : ManagerState → ManagerState) :
    progressTrace (mutate r f) = progressTrace r ++ [(f r.st).progress] := by
  simp [mutate, progressTrace]

theorem progressTrace_mutate_ne_nil (r : Run) (f : ManagerState → ManagerState) :
    progressTrace (mutate r f) ≠ [] := by
  simp [progressTrace_mutate]

/-- One mutation preserves the invariant, provided the value it writes
is within bounds and not below the current progress (no constraint when
nothing has been observed yet). -/
theorem progressInv_mutate (r : Run) (f : ManagerState → ManagerState)
    (hP : progressInv r)
    (hlow : progressTrace r ≠ [] → r.st.progress ≤ (f r.st).progress)
    (h0 : 0 ≤ (f r.st).progress) (h1 : (f r.st).progress ≤ 100) :
    progressInv (mutate r f) := by
  obtain ⟨hc, hb, hp0, hp1, hlast⟩ := hP
  refine ⟨?_, ?_, h0, h1, ?_⟩
  · rw [progressTrace_mutate, List.chain'_append]
    refine ⟨hc, List.chain'_singleton _, ?_⟩
    intro x hx y hy
    simp at hy
    subst hy
    rcases hlast with hl | hl
    · rw [hl] at hx
      simp at hx
      subst hx
      apply hlow
      intro hnil
      rw [hnil] at hl
      simp at hl
    · rw [hl] at hx
      simp at hx
  · rw [progressTrace_mutate]
    intro p hp
    rcases List.mem_append.mp hp with h | h
    · exact hb p h
    · simp at h
      subst h
      exact ⟨h0, h1⟩
  · left
    rw [progressTrace_mutate, List.getLast?_concat]
    rfl

/-- A mutation that leaves the progress value unchanged. -/
theorem progressInv_keep (r : Run) (f : ManagerState → ManagerState)
    (hP : progressInv r) (hkeep : (f r.st).progress = r.st.progress) :
    progressInv (mutate r f) :=
  progressInv_mutate r f hP (fun _ => by rw [hkeep]) (by rw [hkeep]; exact hP.2.2.1)
    (by rw [hkeep]; exact hP.2.2.2.1)

theorem progressInv_tick (r : Run) (hP : progressInv r) :
    progressInv (tick r).2 := hP

theorem progressInv_updateStatus (s : Status) (r : Run) (hP : progressInv r) :
    progressInv (updateStatus s r) :=
  progressInv_keep r _ hP rfl

/-- The invariant only reads the state and the trace. -/
theorem progressInv_congr (r r' : Run) (hst : r'.st = r.st)
    (htr : r'.trace = r.trace) (hP : progressInv r) : progressInv r' := by
  unfold progressInv progressTrace
  unfold progressInv progressTrace at hP
  rw [hst, htr]
  exact hP

theorem progressInv_setFailedState (r : Run) (hP : progressInv r) :
    progressInv (setFailedState r) := by
  have h1 : progressInv (mutate r (fun st => { st with status := .failed })) :=
    progressInv_keep _ _ hP rfl
  have h2 := progressInv_tick _ h1
  have h3 := progressInv_keep _
    (fun st => { st with
      endTime := some (mutate r (fun st => { st with status := .failed })).clock })
    h2 rfl
  exact progressInv_congr _ _ rfl rfl h3

theorem setFailedState_progress (r : Run) :
    (setFailedState r).st.progress = r.st.progress := rfl

theorem setFailedState_trace_ne_nil (r : Run) :
    progressTrace (setFailedState r) ≠ [] := by
  simp [setFailedState, mutate, tick, progressTrace]

/-- `_update_progress p` under a clamp-free value `p` at least the
current progress. -/
theorem progressInv_updateProgress (r : Run) (p : Rat) (hP : progressInv r)
    (hclamp : min 100 (max 0 p) = p) (hge : r.st.progress ≤ p) :
    progressInv (updateProgress p r) := by
  have h0 : 0 ≤ p := by
    rw [← hclamp]
    exact le_min (by norm_num) (le_max_left 0 p)
  have h1 : p ≤ 100 := by
    rw [← hclamp]
    exact min_le_left _ _
  apply progressInv_mutate r _ hP
  · intro _
    show r.st.progress ≤ min 100 (max 0 p)
    rw [hclamp]
    exact hge
  · show (0:Rat) ≤ min 100 (max 0 p)
    rw [hclamp]
    exact h0
  · show min 100 (max 0 p) ≤ (100:Rat)
    rw [hclamp]
    exact h1

theorem updateProgress_progress (r : Run) (p : Rat)
    (hclamp : min 100 (max 0 p) = p) :
    (updateProgress p r).st.progress = p := by
  show min 100 (max 0 p) = p
  exact hclamp

/-- What one step-sequence outcome guarantees: the invariant holds, at
least one snapshot was taken, and a `none` (no exception) outcome ends
at progress `100` in status `completed`. -/
def GoodOut (o : Run × Option String) : Prop :=
  progressInv o.1
  ∧ progressTrace o.1 ≠ []
  ∧ (o.2 = none →
      o.1.st.progress = 100 ∧ o.1.st.status = .completed)

/-- The failure outcome produced by the inner handler is good. -/
theorem goodOut_fail (r : Run) (e : String) (hP : progressInv r) :
    GoodOut (setFailedState r, some e) :=
  ⟨progressInv_setFailedState r hP, setFailedState_trace_ne_nil r,
    fun h => by cases h⟩

/-- `orFail` propagates goodness. -/
theorem orFail_good {α : Type} (x : Except String α) (r : Run)
    (k : α → Run × Option String) (hr : progressInv r)
    (hk : ∀ a, GoodOut (k a)) : GoodOut (orFail x r k) := by
  cases x with
  | error e => exact goodOut_fail r e hr
  | ok a => exact hk a

theorem clamp20 : min (100 : Rat) (max 0 20) = 20 := by norm_num

theorem clamp40 : min (100 : Rat) (max 0 40) = 40 := by norm_num

theorem clamp60 : min (100 : Rat) (max 0 60) = 60 := by norm_num

theorem clamp80 : min (100 : Rat) (max 0 80) = 80 := by norm_num

theorem clamp90 : min (100 : Rat) (max 0 90) = 90 := by norm_num

theorem clamp100 : min (100 : Rat) (max 0 100) = 100 := by norm_num

/-- Walking `_execute_workflow_steps` with the invariant. -/
theorem executeSteps_good (env : Env) (r0 : Run)
    (hP : progressInv r0) (hle : r0.st.progress ≤ 20) :
    GoodOut (executeSteps env r0) := by
  unfold executeSteps
  dsimp only
  apply orFail_good _ _ _ (progressInv_updateStatus _ _ hP)
  intro _
  apply orFail_good _ _ _ (progressInv_updateStatus _ _ (progressInv_updateStatus _ _ hP))
  intro frames
  have h3 : progressInv (mutate (updateStatus .extractingFrames
      (updateStatus .preparing r0)) (fun st => { st with framePaths := frames })) :=
    progressInv_keep _ _ (progressInv_updateStatus _ _ (progressInv_updateStatus _ _ hP)) rfl
  have h4 : progressInv (updateProgress 20 (mutate (updateStatus .extractingFrames
      (updateStatus .preparing r0)) (fun st => { st with framePaths := frames }))) :=
    progressInv_updateProgress _ _ h3 clamp20 hle
  have h4p := updateProgress_progress (mutate (updateStatus .extractingFrames
      (updateStatus .preparing r0)) (fun st => { st with framePaths := frames })) 20 clamp20
  set r4 := updateProgress 20 (mutate (updateStatus .extractingFrames
      (updateStatus .preparing r0)) (fun st => { st with framePaths := frames })) with hr4
  have h6 : progressInv (mutate (updateStatus .preprocessingFrames r4)
      (fun st => { st with processedFramePaths := env.preprocessed frames })) :=
    progressInv_keep _ _ (progressInv_updateStatus _ _ h4) rfl
  have h6p : (mutate (updateStatus .preprocessingFrames r4)
      (fun st => { st with processedFramePaths := env.preprocessed frames })).st.progress = 20 :=
    h4p
  have h7 : progressInv (updateProgress 40 (mutate (updateStatus .preprocessingFrames r4)
      (fun st => { st with processedFramePaths := env.preprocessed frames }))) :=
    progressInv_updateProgress _ _ h6 clamp40 (by rw [h6p]; norm_num)
  have h7p := updateProgress_progress (mutate (updateStatus .preprocessingFrames r4)
      (fun st => { st with processedFramePaths := env.preprocessed frames })) 40 clamp40
  set r7 := updateProgress 40 (mutate (updateStatus .preprocessingFrames r4)
      (fun st => { st with processedFramePaths := env.preprocessed frames })) with hr7
  have h8 : progressInv (if env.hasReplacement then
        mutate (updateStatus .localReplacementPreprocessing r7)
          (fun st => { st with processedFramePaths :=
            env.replacedOutputs (env.preprocessed frames) })
      else r7) := by
    by_cases hrep : env.hasReplacement
    · rw [if_pos hrep]
      exact progressInv_keep _ _ (progressInv_updateStatus _ _ h7) rfl
    · rw [if_neg hrep]
      exact h7
  have h8p : (if env.hasReplacement then
        mutate (updateStatus .localReplacementPreprocessing r7)
          (fun st => { st with processedFramePaths :=
            env.replacedOutputs (env.preprocessed frames) })
      else r7).st.progress = 40 := by
    by_cases hrep : env.hasReplacement
    · rw [if_pos hrep]
      exact h7p
    · rw [if_neg hrep]
      exact h7p
  set r8 := (if env.hasReplacement then
        mutate (updateStatus .localReplacementPreprocessing r7)
          (fun st => { st with processedFramePaths :=
            env.replacedOutputs (env.preprocessed frames) })
      else r7) with hr8
  by_cases hconn : env.connectionOk = false
  · rw [if_pos hconn]
    exact goodOut_fail _ _ h8
  · rw [if_neg hconn]
    apply orFail_good _ _ _ (progressInv_updateStatus _ _ h8)
    intro tid?
    have h10 : progressInv (mutate (updateStatus .uploadingFrames r8)
        (fun st => { st with taskId := tid? })) :=
      progressInv_keep _ _ (progressInv_updateStatus _ _ h8) rfl
    have h10p : (mutate (updateStatus .uploadingFrames r8)
        (fun st => { st with taskId := tid? })).st.progress = 40 := h8p
    cases tid? with
    | none => exact goodOut_fail _ _ h10
    | some tid =>
      dsimp only
      by_cases hemp : (sortedListing (env.preprocessed frames)).isEmpty
      · rw [if_pos hemp]
        exact goodOut_fail _ _ h10
      · rw [if_neg hemp]
        apply orFail_good _ _ _ h10
        intro _
        set r10 := mutate (updateStatus .uploadingFrames r8)
            (fun st => { st with taskId := some tid }) with hr10
        have h11 : progressInv { r10 with
            uploads := r10.uploads ++ [(tid, sortedListing (env.preprocessed frames))] } :=
          h10
        have h11p : ({ r10 with
            uploads := r10.uploads
              ++ [(tid, sortedListing (env.preprocessed frames))] } : Run).st.progress
            = 40 := h10p
        have h12 : progressInv (updateProgress 60 { r10 with
            uploads := r10.uploads ++ [(tid, sortedListing (env.preprocessed frames))] }) :=
          progressInv_updateProgress _ _ h11 clamp60 (by rw [h11p]; norm_num)
        have h12p := updateProgress_progress { r10 with
            uploads := r10.uploads
              ++ [(tid, sortedListing (env.preprocessed frames))] } 60 clamp60
        set r12 := updateProgress 60 { r10 with
            uploads := r10.uploads
              ++ [(tid, sortedListing (env.preprocessed frames))] } with hr12
        apply orFail_good _ _ _ (progressInv_updateStatus _ _ h12)
        intro _
        have h14 : progressInv (updateProgress 80 (updateStatus .executingWorkflow r12)) :=
          progressInv_updateProgress _ _ (progressInv_updateStatus _ _ h12) clamp80
            (by rw [show (updateStatus .executingWorkflow r12).st.progress = 60 from h12p]
                norm_num)
        have h14p := updateProgress_progress (updateStatus .executingWorkflow r12) 80 clamp80
        set r14 := updateProgress 80 (updateStatus .executingWorkflow r12) with hr14
        have h16 : progressInv (updateProgress 90 (updateStatus .downloadingResults r14)) :=
          progressInv_updateProgress _ _ (progressInv_updateStatus _ _ h14) clamp90
            (by rw [show (updateStatus .downloadingResults r14).st.progress = 80 from h14p]
                norm_num)
        have h16p := updateProgress_progress (updateStatus .downloadingResults r14) 90 clamp90
        set r16 := updateProgress 90 (updateStatus .downloadingResults r14) with hr16
        have h17 : progressInv (updateStatus .composingVideo r16) :=
          progressInv_updateStatus _ _ h16
        have h17p : (updateStatus .composingVideo r16).st.progress = 90 := h16p
        set r17 := updateStatus .composingVideo r16 with hr17
        by_cases hres :
            ((updateStatus .downloadingResults r14).st.processedFramePaths).isEmpty
        · rw [if_pos hres]
          exact goodOut_fail _ _ h17
        · rw [if_neg hres]
          apply orFail_good _ _ _ h17
          intro _
          have h18 : progressInv (updateProgress 100 r17) :=
            progressInv_updateProgress _ _ h17 clamp100 (by rw [h17p]; norm_num)
          have h18p := updateProgress_progress r17 100 clamp100
          have h19 : progressInv (updateStatus .completed (updateProgress 100 r17)) :=
            progressInv_updateStatus _ _ h18
          have h19p : (updateStatus .completed (updateProgress 100 r17)).st.progress
              = 100 := h18p
          have h21 := progressInv_keep
            (tick (updateStatus .completed (updateProgress 100 r17))).2
            (fun st =>
              { st with
                  endTime :=
                    some (tick (updateStatus .completed
                      (updateProgress 100 r17))).1 })
            (progressInv_tick _ h19) rfl
          have h21ne := progressTrace_mutate_ne_nil
            (tick (updateStatus .completed (updateProgress 100 r17))).2
            (fun st =>
              { st with
                  endTime :=
                    some (tick (updateStatus .completed
                      (updateProgress 100 r17))).1 })
          exact ⟨progressInv_congr _ _ rfl rfl h21, h21ne, fun _ => ⟨h19p, rfl⟩⟩

/-- C7: across one `start_workflow` call the observed progress values
form a non-decreasing sequence within `[0, 100]`; on success the
sequence ends at `100` with status `completed`; on failure the final
progress equals the last observed value (frozen); and cancellation never
changes progress. -/
theorem progress_monotone (env : Env) (s0 : ManagerState) (c0 : Nat)
    (h0 : 0 ≤ s0.progress) (h1 : s0.progress ≤ 100) :
    List.Chain' (· ≤ ·) (progressTrace (start_workflow env (initRun s0 c0)).1)
    ∧ (∀ p ∈ progressTrace (start_workflow env (initRun s0 c0)).1,
        0 ≤ p ∧ p ≤ 100)
    ∧ ((start_workflow env (initRun s0 c0)).2 = none →
        (start_workflow env (initRun s0 c0)).1.st.progress = 100
        ∧ (progressTrace (start_workflow env (initRun s0 c0)).1).getLast?
            = some 100
        ∧ (start_workflow env (initRun s0 c0)).1.st.status = .completed)
    ∧ ((start_workflow env (initRun s0 c0)).2.isSome →
        (progressTrace (start_workflow env (initRun s0 c0)).1).getLast?
          = some ((start_workflow env (initRun s0 c0)).1.st.progress))
    ∧ (∀ r : Run, ((cancel_workflow r).1).st.progress = r.st.progress) := by
  have hinit : progressInv (initRun s0 c0) := by
    refine ⟨?_, ?_, h0, h1, Or.inr rfl⟩
    · simp [initRun, progressTrace]
    · simp [initRun, progressTrace]
  have hout : GoodOut (start_workflow env (initRun s0 c0))
      ∧ progressTrace (start_workflow env (initRun s0 c0)).1 ≠ [] := by
    unfold start_workflow
    by_cases hin : env.inputExists = false
    · rw [if_pos hin]
      exact ⟨goodOut_fail _ _ hinit, setFailedState_trace_ne_nil _⟩
    · rw [if_neg hin]
      have hpre : progressInv (startPrelude env (initRun s0 c0)) := by
        unfold startPrelude
        apply progressInv_keep _ _ (progressInv_keep _ _ (progressInv_keep _ _
          (progressInv_tick _ (progressInv_keep _ _ (progressInv_keep _ _
          (progressInv_keep _ _ ?_ rfl) rfl) rfl)) rfl) rfl) rfl
        apply progressInv_mutate _ _ hinit
        · intro hne
          simp [initRun, progressTrace] at hne
        · norm_num
        · norm_num
      have hprep : (startPrelude env (initRun s0 c0)).st.progress = 0 := rfl
      have hg := executeSteps_good env (startPrelude env (initRun s0 c0)) hpre
        (by rw [hprep]; norm_num)
      rcases hE : executeSteps env (startPrelude env (initRun s0 c0)) with ⟨r9, e?⟩
      rw [hE] at hg
      cases e? with
      | none => exact ⟨hg, hg.2.1⟩
      | some e =>
        refine ⟨⟨progressInv_setFailedState _ hg.1, setFailedState_trace_ne_nil _,
          fun hc => by cases hc⟩, setFailedState_trace_ne_nil _⟩
  obtain ⟨⟨hInv, hne, hok⟩, hne'⟩ := hout
  obtain ⟨hc, hb, hp0, hp1, hlast⟩ := hInv
  have hlastEq : (progressTrace (start_workflow env (initRun s0 c0)).1).getLast?
      = some ((start_workflow env (initRun s0 c0)).1.st.progress) := by
    rcases hlast with hl | hl
    · exact hl
    · exact absurd hl hne
  refine ⟨hc, hb, fun h => ?_, fun _ => hlastEq, cancel_preserves_progress⟩
  obtain ⟨hp100, hcomp⟩ := hok h
  exact ⟨hp100, by rw [hlastEq, hp100], hcomp⟩
/-- Witness for C7 at the all-success environment from a fresh state. -/
theorem progress_monotone_witness :
    (0 ≤ freshState.progress ∧ freshState.progress ≤ 100)
    ∧ (List.Chain' (· ≤ ·)
        (progressTrace (start_workflow okEnv (initRun freshState 0)).1)
      ∧ (∀ p ∈ progressTrace (start_workflow okEnv (initRun freshState 0)).1,
          0 ≤ p ∧ p ≤ 100)
      ∧ ((start_workflow okEnv (initRun freshState 0)).2 = none →
          (start_workflow okEnv (initRun freshState 0)).1.st.progress = 100
          ∧ (progressTrace (start_workflow okEnv
              (initRun freshState 0)).1).getLast? = some 100
          ∧ (start_workflow okEnv (initRun freshState 0)).1.st.status
              = .completed)
      ∧ ((start_workflow okEnv (initRun freshState 0)).2.isSome →
          (progressTrace (start_workflow okEnv
              (initRun freshState 0)).1).getLast?
            = some ((start_workflow okEnv
                (initRun freshState 0)).1.st.progress))
      ∧ (∀ r : Run, ((cancel_workflow r).1).st.progress = r.st.progress)) :=
  ⟨⟨by decide, by decide⟩,
    progress_monotone okEnv freshState 0 (by decide) (by decide)⟩

/-! ## C8: the terminal guard of `cancel_workflow` -/

/-- C8: `cancel_workflow` on a terminal session returns the non-success
outcome and leaves the whole run — every session field, the end
timestamp, the trace — untouched. -/
theorem cancel_terminal_guard (r : Run) (h : r.st.status.isTerminal = true) :
    cancel_workflow r = (r, false) := by
  simp [cancel_workflow, h]

/-- Witness for C8 on a completed session. -/
theorem cancel_terminal_guard_witness :
    cancel_workflow (initRun doneState 10) = (initRun doneState 10, false) :=
  cancel_terminal_guard (initRun doneState 10) (by decide)

/-- Witness for C9 on a file system holding the working directory of
`doneState`, one file inside it, and the output video. -/
theorem cleanup_idempotent_witness :
    ∃ fs1, cleanup doneState true
        ["temp/workflow_old", "temp/workflow_old/frames",
         "outputs/old_replicated.mp4"] = .ok fs1
      ∧ (∀ d, doneState.workingDir = some d → pathExists fs1 d = false)
      ∧ ∃ fs2, cleanup doneState true fs1 = .ok fs2 :=
  cleanup_idempotent doneState true
    ["temp/workflow_old", "temp/workflow_old/frames",
     "outputs/old_replicated.mp4"]

/-! ## C10: `start_workflow` on a missing input video -/

/-- C10: when the input video does not exist, `start_workflow` raises,
the status becomes `failed` and an end timestamp is recorded, but every
other session field keeps its value from the previous session, because
the existence check runs before `_reset_state`. -/
theorem start_missing_input (env : Env) (s0 : ManagerState) (c0 : Nat)
    (h : env.inputExists = false) :
    (start_workflow env (initRun s0 c0)).2 = some "input video does not exist"
    ∧ (start_workflow env (initRun s0 c0)).1.st.status = .failed
    ∧ (start_workflow env (initRun s0 c0)).1.st.endTime = some c0
    ∧ (start_workflow env (initRun s0 c0)).1.st.workflowId = s0.workflowId
    ∧ (start_workflow env (initRun s0 c0)).1.st.progress = s0.progress
    ∧ (start_workflow env (initRun s0 c0)).1.st.workingDir = s0.workingDir
    ∧ (start_workflow env (initRun s0 c0)).1.st.inputVideoPath = s0.inputVideoPath
    ∧ (start_workflow env (initRun s0 c0)).1.st.outputVideoPath = s0.outputVideoPath
    ∧ (start_workflow env (initRun s0 c0)).1.st.framePaths = s0.framePaths
    ∧ (start_workflow env (initRun s0 c0)).1.st.processedFramePaths
        = s0.processedFramePaths
    ∧ (start_workflow env (initRun s0 c0)).1.st.taskId = s0.taskId
    ∧ (start_workflow env (initRun s0 c0)).1.st.startTime = s0.startTime := by
  simp [start_workflow, h, setFailedState, mutate, tick, initRun]

/-- Witness for C10: a missing input after a completed session keeps all
of that session's fields. -/
theorem start_missing_input_witness :
    (start_workflow { okEnv with inputExists := false }
        (initRun doneState 20)).2 = some "input video does not exist"
    ∧ (start_workflow { okEnv with inputExists := false }
        (initRun doneState 20)).1.st.status = .failed
    ∧ (start_workflow { okEnv with inputExists := false }
        (initRun doneState 20)).1.st.endTime = some 20
    ∧ (start_workflow { okEnv with inputExists := false }
        (initRun doneState 20)).1.st.workflowId = doneState.workflowId
    ∧ (start_workflow { okEnv with inputExists := false }
        (initRun doneState 20)).1.st.progress = doneState.progress
    ∧ (start_workflow { okEnv with inputExists := false }
        (initRun doneState 20)).1.st.workingDir = doneState.workingDir
    ∧ (start_workflow { okEnv with inputExists := false }
        (initRun doneState 20)).1.st.inputVideoPath = doneState.inputVideoPath
    ∧ (start_workflow { okEnv with inputExists := false }
        (initRun doneState 20)).1.st.outputVideoPath = doneState.outputVideoPath
    ∧ (start_workflow { okEnv with inputExists := false }
        (initRun doneState 20)).1.st.framePaths = doneState.framePaths
    ∧ (start_workflow { okEnv with inputExists := false }
        (initRun doneState 20)).1.st.processedFramePaths
        = doneState.processedFramePaths
    ∧ (start_workflow { okEnv with inputExists := false }
        (initRun doneState 20)).1.st.taskId = doneState.taskId
    ∧ (start_workflow { okEnv with inputExists := false }
        (initRun doneState 20)).1.st.startTime = doneState.startTime :=
  start_missing_input { okEnv with inputExists := false } doneState 20 rfl

end WorkflowManager

end VideoKeev
